import Mathlib

/-!
Shallow embedding of `src/blockchain.py` (Titancoin ledger).

The Python code is translated statement by statement:

* `_Transaction` becomes the inductive `Transaction` (the `next` field makes the
  type recursive, so it is an inductive with one constructor and projection
  functions).
* Python's `dict[str, int]` becomes an insertion-ordered association list
  `Dict := List (String × Int)`; `d[k] = v` is `setD` (update in place, append
  if absent, matching dict semantics) and a read `d[k]` is `lookupD`, which is
  `none` exactly when Python would raise `KeyError`.
* Methods that can raise return `Option PyErr × Ledger`: the first component is
  the exception raised (if any) and the second is the ledger state when the
  method returns or the exception escapes.  Python exceptions do not roll back
  earlier attribute writes, so each raise point returns the state built up to
  that point.
* `record_mining` never raises, so it simply returns the next state.
-/

namespace Blockchain

/-- The Python exceptions this module can raise. -/
inductive PyErr : Type where
  | keyError : PyErr
  | valueError : PyErr
deriving DecidableEq

/-- Equality of `Except` values is decidable when both components' is. -/
instance instDecEqExcept {ε α : Type} [DecidableEq ε] [DecidableEq α] :
    DecidableEq (Except ε α) := fun a b =>
  match a, b with
  | Except.error e, Except.error f =>
    if h : e = f then Decidable.isTrue (by rw [h])
    else Decidable.isFalse (fun hh => h (Except.error.inj hh))
  | Except.error _, Except.ok _ => Decidable.isFalse (fun hh => Except.noConfusion hh)
  | Except.ok _, Except.error _ => Decidable.isFalse (fun hh => Except.noConfusion hh)
  | Except.ok x, Except.ok y =>
    if h : x = y then Decidable.isTrue (by rw [h])
    else Decidable.isFalse (fun hh => h (Except.ok.inj hh))

/-- `_Transaction` from the source: sender, recipient, amount, next, prev_digest, nonce.
`sender = ""` marks a mining transaction. -/
inductive Transaction : Type where
  | mk (sender : String) (recipient : String) (amount : Int)
      (next : Option Transaction) (prev_digest : Int) (nonce : Int)

def Transaction.sender : Transaction → String
  | .mk s _ _ _ _ _ => s

def Transaction.recipient : Transaction → String
  | .mk _ r _ _ _ _ => r

def Transaction.amount : Transaction → Int
  | .mk _ _ a _ _ _ => a

def Transaction.next : Transaction → Option Transaction
  | .mk _ _ _ n _ _ => n

def Transaction.prev_digest : Transaction → Int
  | .mk _ _ _ _ d _ => d

def Transaction.nonce : Transaction → Int
  | .mk _ _ _ _ _ n => n

/-- Python `dict[str, int]`, as an insertion-ordered association list. -/
abbrev Dict := List (String × Int)

/-- `d[k]` as a read: `none` is Python's `KeyError`. -/
def lookupD : Dict → String → Option Int
  | [], _ => none
  | p :: rest, k => if p.1 = k then some p.2 else lookupD rest k

/-- `d[k] = v`: replace the value at an existing key in place, append a new key. -/
def setD : Dict → String → Int → Dict
  | [], k, v => [(k, v)]
  | p :: rest, k, v => if p.1 = k then (k, v) :: rest else p :: setD rest k v

/-- Number of records in the chain hanging off one record (itself included). -/
def chainLengthT : Transaction → Nat
  | .mk _ _ _ none _ _ => 1
  | .mk _ _ _ (some t) _ _ => 1 + chainLengthT t
termination_by structural t => t

/-- Number of records reachable from an optional head by following `next`. -/
def chainLength : Option Transaction → Nat
  | none => 0
  | some t => chainLengthT t

/-- The `Ledger` class state: `first`, `last`, `_balance`. -/
structure Ledger where
  first : Option Transaction
  last : Option Transaction
  _balance : Dict

/-- `Ledger.__init__`: no transactions, no balances. -/
def Ledger.empty : Ledger := ⟨none, none, []⟩

/-- `Ledger.record_transfer`.  The Python body first builds
`new_tansfer = _Transaction(sender, recipient, amount)`, then evaluates
`self._balance[sender] < amount` — a `KeyError` when `sender` is absent, which
makes the later `elif sender not in self._balance` branch dead code — raises
`ValueError` on insufficient balance, and otherwise sets `self.last` (only) and
updates the two balances. -/
def record_transfer (self : Ledger) (sender recipient : String) (amount : Int) :
    Option PyErr × Ledger :=
  let new_tansfer := Transaction.mk sender recipient amount none 0 0
  match lookupD self._balance sender with
  | none => (some PyErr.keyError, self)
  | some b =>
    if b < amount then
      (some PyErr.valueError, self)
    else
      let self1 : Ledger := { self with last := some new_tansfer }
      let bal1 := setD self1._balance sender (b - amount)
      match lookupD bal1 recipient with
      | none => (none, { self1 with _balance := setD bal1 recipient amount })
      | some rb => (none, { self1 with _balance := setD bal1 recipient (rb + amount) })

/-- `Ledger.record_mining`.  Faithful to the source: when the ledger is empty it
sets `self.first` (but not `self.last`); otherwise it sets `self.last` (without
linking the previous tail); in both branches it assigns
`self._balance[miner] = amount`. -/
def record_mining (self : Ledger) (miner : String) (amount : Int) : Ledger :=
  let new_miner := Transaction.mk "" miner amount none 0 0
  match self.first with
  | none => { self with first := some new_miner, _balance := setD self._balance miner amount }
  | some _ => { self with last := some new_miner, _balance := setD self._balance miner amount }

/-- `Ledger.get_balance`: `ValueError` when the person has no recorded balance. -/
def get_balance (self : Ledger) (person : String) : Except PyErr Int :=
  match lookupD self._balance person with
  | none => Except.error PyErr.valueError
  | some b => Except.ok b

/-- One iteration (and the rest) of the `while curr_trans is not None` loop of
`Ledger.verify_balance`, recursing on the record being processed.  `bal` is
`self._balance`, `acc` is `balance_so_far`.  The returned pair is the
early-return flag and the accumulator: `(false, _)` models the `return False`
inside the loop; each dict read that can `KeyError` is modelled by `lookupD`. -/
def verify_walkT (bal : Dict) (acc : Dict) : Transaction → Except PyErr (Bool × Dict)
  | .mk s r a nx _ _ =>
    match lookupD acc r with
    | none => Except.error PyErr.keyError
    | some br =>
      let acc1 := setD acc r (br + a)
      if s = "" then
        match nx with
        | none => Except.ok (true, acc1)
        | some t2 => verify_walkT bal acc1 t2
      else
        match lookupD bal s with
        | none => Except.error PyErr.keyError
        | some bs =>
          if bs < a ∨ bs = 0 then
            Except.ok (false, acc1)
          else
            match lookupD acc1 s with
            | none => Except.error PyErr.keyError
            | some cs =>
              match nx with
              | none => Except.ok (true, setD acc1 s (cs - a))
              | some t2 => verify_walkT bal (setD acc1 s (cs - a)) t2
termination_by structural t => t

/-- The whole `while` loop, started at `curr_trans = self.first`. -/
def verify_walk (bal : Dict) (acc : Dict) : Option Transaction → Except PyErr (Bool × Dict)
  | none => Except.ok (true, acc)
  | some t => verify_walkT bal acc t

/-- The final `for name in balance_so_far` loop of `verify_balance`: compare the
accumulator with `self._balance` entry by entry. -/
def final_check (bal : Dict) : Dict → Except PyErr Bool
  | [] => Except.ok true
  | (k, v) :: rest =>
    match lookupD bal k with
    | none => Except.error PyErr.keyError
    | some bv => if v ≠ bv then Except.ok false else final_check bal rest

/-- `Ledger.verify_balance`: zero-initialise `balance_so_far` over the keys of
`self._balance`, walk the chain from `self.first`, then compare. -/
def verify_balance (self : Ledger) : Except PyErr Bool :=
  let balance_so_far := self._balance.map (fun p => (p.1, (0 : Int)))
  match verify_walk self._balance balance_so_far self.first with
  | Except.error e => Except.error e
  | Except.ok (false, _) => Except.ok false
  | Except.ok (true, acc) => final_check self._balance acc

/-- A deterministic value for a string, used by the modelled digest function. -/
def strVal (s : String) : Int :=
  s.data.foldl (fun a c => a * 257 + (c.toNat : Int)) 7

/-- Modelled from the spec: `digest_from_hash` is called by
`record_transfer_digest` and `record_mining_digest` ("using the digest_from_hash
function provided near the bottom of this file") but its definition is missing
from the repository snapshot.  Per the spec it is a deterministic function of
the record's full field set (sender, recipient, amount, its own prev_digest,
its nonce) producing a fixed-width integer, and the zero sentinel when there is
no predecessor. -/
def digest_from_hash : Option Transaction → Int
  | none => 0
  | some (.mk s r a _ pd n) =>
    (strVal s * 31 + strVal r * 17 + a * 13 + pd * 11 + n * 7 + 1) % (2 ^ 32)

/-- `Ledger.record_transfer_digest`: identical to `record_transfer` except that
the new record is created with `prev_digest = digest_from_hash(self.last)`. -/
def record_transfer_digest (self : Ledger) (sender recipient : String) (amount : Int) :
    Option PyErr × Ledger :=
  let new_tansfer :=
    Transaction.mk sender recipient amount none (digest_from_hash self.last) 0
  match lookupD self._balance sender with
  | none => (some PyErr.keyError, self)
  | some b =>
    if b < amount then
      (some PyErr.valueError, self)
    else
      let self1 : Ledger := { self with last := some new_tansfer }
      let bal1 := setD self1._balance sender (b - amount)
      match lookupD bal1 recipient with
      | none => (none, { self1 with _balance := setD bal1 recipient amount })
      | some rb => (none, { self1 with _balance := setD bal1 recipient (rb + amount) })

/-- `Ledger.record_mining_digest`: the new record is created with
`prev_digest = digest_from_hash(self.last)`; in the empty-ledger branch the
source then assigns `new_miner.prev_digest = 0` on the record it just stored in
`self.first` (the record is not aliased anywhere else, so stored as a value
with `prev_digest = 0`). -/
def record_mining_digest (self : Ledger) (miner : String) (amount : Int) : Ledger :=
  match self.first with
  | none =>
    { self with first := some (Transaction.mk "" miner amount none 0 0),
                _balance := setD self._balance miner amount }
  | some _ =>
    { self with
        last := some (Transaction.mk "" miner amount none (digest_from_hash self.last) 0),
        _balance := setD self._balance miner amount }

/-- One mutation call on the ledger (Part 2(a) API). -/
inductive Op : Type where
  | mining (miner : String) (amount : Int)
  | transfer (sender recipient : String) (amount : Int)
deriving DecidableEq

/-- Run one operation; `record_mining` never raises. -/
def applyOp (l : Ledger) : Op → Option PyErr × Ledger
  | Op.mining m a => (none, record_mining l m a)
  | Op.transfer s r a => record_transfer l s r a

/-- Run a sequence of calls, keeping the state each call leaves behind
(a raising call leaves its state as built up to the raise point). -/
def runOps (l : Ledger) : List Op → Ledger
  | [] => l
  | op :: rest => runOps (applyOp l op).2 rest

/-- The op's call raised no exception at this state. -/
def succeeds (l : Ledger) (op : Op) : Bool :=
  (applyOp l op).1 = none

/-- Every call in the sequence succeeds at the state where it runs. -/
def allSucceed (l : Ledger) : List Op → Bool
  | [] => true
  | op :: rest => succeeds l op && allSucceed (applyOp l op).2 rest

/-- The documented preconditions on a call: non-empty names, positive amount. -/
def validOp : Op → Bool
  | Op.mining m a => m ≠ "" && 0 < a
  | Op.transfer s r a => s ≠ "" && r ≠ "" && 0 < a

/-- Every value in the balance index is non-negative. -/
def NonnegBal (l : Ledger) : Prop := ∀ p ∈ l._balance, 0 ≤ p.2

/-- Sum of the values of a dict. -/
def sumVals (d : Dict) : Int := (d.map Prod.snd).sum

/-- Total amount issued by the mining calls of a sequence. -/
def minedTotal : List Op → Int
  | [] => 0
  | Op.mining _ a :: rest => a + minedTotal rest
  | Op.transfer _ _ _ :: rest => minedTotal rest

/-- `verify_balance` with the receiver threaded through, as the method executes:
the body performs no attribute assignment, so the state it hands back is the
state it received. -/
def verify_balance_run (self : Ledger) : Except PyErr Bool × Ledger :=
  let balance_so_far := self._balance.map (fun p => (p.1, (0 : Int)))
  match verify_walk self._balance balance_so_far self.first with
  | Except.error e => (Except.error e, self)
  | Except.ok (false, _) => (Except.ok false, self)
  | Except.ok (true, acc) => (final_check self._balance acc, self)

/-! ## Helper lemmas -/

theorem lookupD_nonneg {d : Dict} (h : ∀ p ∈ d, 0 ≤ p.2) {k : String} {v : Int}
    (hl : lookupD d k = some v) : 0 ≤ v := by
  induction d with
  | nil => simp [lookupD] at hl
  | cons p rest ih =>
    by_cases hk : p.1 = k
    · simp [lookupD, hk] at hl
      exact hl ▸ h p (List.mem_cons_self _ _)
    · simp [lookupD, hk] at hl
      exact ih (fun q hq => h q (List.mem_cons_of_mem _ hq)) hl

theorem setD_nonneg {d : Dict} (h : ∀ p ∈ d, 0 ≤ p.2) {k : String} {v : Int}
    (hv : 0 ≤ v) : ∀ p ∈ setD d k v, 0 ≤ p.2 := by
  induction d with
  | nil =>
    intro p hp
    simp [setD] at hp
    simp [hp, hv]
  | cons q rest ih =>
    intro p hp
    by_cases hk : q.1 = k
    · simp [setD, hk] at hp
      rcases hp with hp | hp
      · simp [hp, hv]
      · exact h p (List.mem_cons_of_mem _ hp)
    · simp [setD, hk] at hp
      rcases hp with hp | hp
      · exact hp ▸ h q (List.mem_cons_self _ _)
      · exact ih (fun u hu => h u (List.mem_cons_of_mem _ hu)) p hp

theorem record_mining_bal (l : Ledger) (m : String) (a : Int) :
    (record_mining l m a)._balance = setD l._balance m a := by
  unfold record_mining
  cases l.first <;> rfl

theorem record_mining_nonneg {l : Ledger} (h : NonnegBal l) {m : String} {a : Int}
    (ha : 0 ≤ a) : NonnegBal (record_mining l m a) := by
  intro p hp
  rw [record_mining_bal] at hp
  exact setD_nonneg h ha p hp

theorem record_transfer_nonneg {l : Ledger} {s r : String} {a : Int}
    (h : NonnegBal l) (ha : 0 ≤ a) : NonnegBal (record_transfer l s r a).2 := by
  rcases hs : lookupD l._balance s with _ | b
  · simpa [record_transfer, hs] using h
  · by_cases hba : b < a
    · simpa [record_transfer, hs, hba] using h
    · have hb0 : 0 ≤ b - a := by
        have hab : a ≤ b := not_lt.mp hba
        omega
      have h1 : ∀ p ∈ setD l._balance s (b - a), 0 ≤ p.2 := setD_nonneg h hb0
      rcases hr : lookupD (setD l._balance s (b - a)) r with _ | rb
      · simp only [record_transfer, hs, hba, if_false, hr]
        intro p hp
        exact setD_nonneg h1 ha p hp
      · have hrb : 0 ≤ rb := lookupD_nonneg h1 hr
        simp only [record_transfer, hs, hba, if_false, hr]
        intro p hp
        exact setD_nonneg h1 (by omega) p hp

theorem applyOp_nonneg {l : Ledger} {op : Op} (h : NonnegBal l)
    (hop : validOp op = true) : NonnegBal (applyOp l op).2 := by
  cases op with
  | mining m a =>
    simp [validOp] at hop
    exact record_mining_nonneg h (le_of_lt hop.2)
  | transfer s r a =>
    simp [validOp] at hop
    exact record_transfer_nonneg h (le_of_lt hop.2)

theorem runOps_nonneg (ops : List Op) : ∀ l : Ledger, NonnegBal l →
    (∀ op ∈ ops, validOp op = true) → NonnegBal (runOps l ops) := by
  induction ops with
  | nil => intro l h _; exact h
  | cons op rest ih =>
    intro l h hv
    exact ih _ (applyOp_nonneg h (hv op (List.mem_cons_self _ _)))
      (fun op2 h2 => hv op2 (List.mem_cons_of_mem _ h2))

theorem nonneg_empty : NonnegBal Ledger.empty := by
  intro p hp
  simp [Ledger.empty] at hp

/-! ## Claim theorems -/

/-- Claim C1: the spec says that after `n` successful mutation calls the chain
contains exactly `n` records, with `first` reaching `last` by following `next`
`n-1` times and each append linking the previous tail.  The code violates this:
after one successful `record_mining` on the empty ledger, `first` holds the new
record but `last` is still `none` (so the length-1 chain with `first = last`
does not exist), and after two minings the chain reachable from `first` still
has length 1 because no `next` link is ever set. -/
theorem C1_chain_not_maintained :
    (record_mining Ledger.empty "David" 5).last = none ∧
    (record_mining Ledger.empty "David" 5).first.isSome = true ∧
    chainLength (record_mining (record_mining Ledger.empty "David" 5) "Mario" 8).first = 1 :=
  ⟨rfl, rfl, by decide⟩

/-- Claim C2: the spec says `verify_balance` returns `True` for every ledger
built purely through successful `record_mining`/`record_transfer` calls.  The
code violates this: after `record_mining "David" 50; record_mining "Mario" 20`
(both successful, no tampering), `verify_balance` returns `False`, because the
records were never linked so the walk from `first` sees only the first mining
and the accumulator disagrees with `_balance` at `"Mario"`. -/
theorem C2_verify_balance_fails_untampered :
    allSucceed Ledger.empty [Op.mining "David" 50, Op.mining "Mario" 20] = true ∧
    verify_balance (runOps Ledger.empty [Op.mining "David" 50, Op.mining "Mario" 20]) =
      Except.ok false :=
  ⟨by decide, by decide⟩

/-- Claim C3: the spec says `record_mining miner amount` adds `amount` to the
miner's entry, so mining twice leaves the sum of the two amounts.  The code
violates this: both branches assign `self._balance[miner] = amount`, so after
mining 2 and then 3 for `"David"` the balance is 3, not 2 + 3. -/
theorem C3_record_mining_overwrites_balance :
    lookupD (record_mining (record_mining Ledger.empty "David" 2) "David" 3)._balance
        "David" = some 3 ∧
    lookupD (record_mining (record_mining Ledger.empty "David" 2) "David" 3)._balance
        "David" ≠ some (2 + 3) :=
  ⟨rfl, by decide⟩

/-- Claim C4: a rejected `record_transfer` (unknown sender, raising `KeyError`
at the `self._balance[sender]` read, or insufficient balance, raising
`ValueError`) performs no mutation: both raise points occur before any write to
`first`, `last` or `_balance`, so the state the exception escapes with is
exactly the pre-call state. -/
theorem C4_rejected_transfer_no_mutation (l : Ledger) (s r : String) (a : Int)
    (h : (record_transfer l s r a).1 ≠ none) : (record_transfer l s r a).2 = l := by
  rcases hs : lookupD l._balance s with _ | b
  · simp [record_transfer, hs]
  · by_cases hba : b < a
    · simp [record_transfer, hs, hba]
    · exfalso
      rcases hr : lookupD (setD l._balance s (b - a)) r with _ | rb <;>
        simp [record_transfer, hs, hba, hr] at h

theorem C4_rejected_transfer_no_mutation_witness :
    (record_transfer Ledger.empty "David" "Mario" 5).2 = Ledger.empty :=
  C4_rejected_transfer_no_mutation Ledger.empty "David" "Mario" 5 (by decide)

/-- Claim C5: the spec (and the method's own docstring) says a transfer whose
sender has no recorded balance fails with the documented `ValueError`.  The
code violates this: `self._balance[sender] < amount` is evaluated first and
raises `KeyError` for an absent sender, making the
`elif sender not in self._balance` branch dead code, so the caller sees an
undocumented `KeyError` instead of `ValueError`. -/
theorem C5_unknown_sender_keyerror :
    (record_transfer Ledger.empty "David" "Mario" 5).1 = some PyErr.keyError ∧
    PyErr.keyError ≠ PyErr.valueError :=
  ⟨rfl, by decide⟩

/-- Claim C6: the spec (and the docstring) says `verify_balance` never raises
and always returns a boolean, even on tampered states.  The code violates
this: on a ledger whose chain holds a transfer from a sender `"X"` absent from
`_balance`, the read `self._balance[sender]` raises `KeyError` instead of
returning `False`. -/
theorem C6_verify_balance_raises :
    verify_balance
        ⟨some (Transaction.mk "X" "Y" 5 none 0 0), some (Transaction.mk "X" "Y" 5 none 0 0),
          [("Y", 5)]⟩ =
      Except.error PyErr.keyError := by
  decide

/-- Claim C7: the spec says the sum of all `_balance` values equals the total
amount issued by mining.  The code violates this because `record_mining`
overwrites instead of adding: after mining 2 and then 3 for `"David"` (both
calls succeed), the balances sum to 3 while the mined total is 5. -/
theorem C7_conservation_fails :
    allSucceed Ledger.empty [Op.mining "David" 2, Op.mining "David" 3] = true ∧
    sumVals (runOps Ledger.empty [Op.mining "David" 2, Op.mining "David" 3])._balance = 3 ∧
    minedTotal [Op.mining "David" 2, Op.mining "David" 3] = 5 :=
  ⟨rfl, rfl, rfl⟩

/-- Claim C8: for every sequence of valid operations (non-empty names, positive
amounts) run from the empty ledger, every value in `_balance` stays ≥ 0.
Mining stores a positive amount; a transfer that passes the `b < amount` guard
deducts at most the sender's balance and adds a positive amount to the
recipient; rejected calls leave the state unchanged.  Since the statement
quantifies over every sequence, it covers the state after every prefix, i.e.
after every operation. -/
theorem C8_balances_nonneg (ops : List Op) (hv : ∀ op ∈ ops, validOp op = true) :
    NonnegBal (runOps Ledger.empty ops) :=
  runOps_nonneg ops Ledger.empty nonneg_empty hv

theorem C8_balances_nonneg_witness :
    NonnegBal (runOps Ledger.empty
      [Op.mining "David" 50, Op.mining "Mario" 20, Op.transfer "David" "Mario" 10]) :=
  C8_balances_nonneg
    [Op.mining "David" 50, Op.mining "Mario" 20, Op.transfer "David" "Mario" 10]
    (by decide)

/-- Claim C9: the spec says each record appended by the digest-aware
operations stores the digest of the record that was the tail at append time,
zero sentinel only for the first record.  The code violates this: the empty-
ledger branch of `record_mining_digest` never sets `self.last`, so the second
append reads `digest_from_hash(None) = 0` and stores the zero sentinel even
though the ledger already holds a record whose digest is nonzero (31971 for
the modelled digest function). -/
theorem C9_digest_linkage_broken :
    ((record_mining_digest (record_mining_digest Ledger.empty "A" 5) "B" 3).last.map
        Transaction.prev_digest) = some 0 ∧
    digest_from_hash (record_mining_digest Ledger.empty "A" 5).first = 31971 ∧
    (31971 : Int) ≠ 0 :=
  ⟨rfl, rfl, by decide⟩

/-- Claim C10: `verify_balance` is read-only.  `verify_balance_run` threads the
receiver through the method body, which performs no attribute assignment, so
the state it returns is the state it received, and its result agrees with the
pure `verify_balance`. -/
theorem C10_verify_balance_readonly (l : Ledger) :
    verify_balance_run l = (verify_balance l, l) := by
  unfold verify_balance_run verify_balance
  cases h : verify_walk l._balance (List.map (fun p => (p.1, (0 : Int))) l._balance) l.first with
  | error e => simp [h]
  | ok p =>
    rcases p with ⟨b, acc⟩
    cases b <;> simp [h]

end Blockchain
